import Mathlib

/-!
Verification of the density-routing core of the benchmark repository.

The embedding follows `src/markers.js` (the zoom-adaptive partitioner variant,
whose private helpers are `_maxRadius`, `_preGroup`, `_route`, `_buildEntry`,
and whose public API is `renderMarkers`, `addMarkersToGroup`,
`applyMarkerFilter`), together with `mergeFeatures` from `src/store.js`.

Pixel coordinates are modelled as exact rationals; the grid key
`Math.floor(x / cellSize)` with `cellSize = _maxRadius(zoom) / Math.SQRT2`
is embedded exactly as the integer `⌊(x / r) * √2⌋`, computed by the
executable function `floorMulSqrt2` and proved equal to the real-number
floor in `floorMulSqrt2_eq_floor`.
-/

set_option maxRecDepth 8000

-- ─── Constants and the exact grid floor ──────────────────────────────────────

/-- Source: `const MIN_CLUSTER = 10` in `src/markers.js` — minimum markers
per grid cell to produce a cluster badge. -/
def MIN_CLUSTER : Nat := 10

/-- Source: `_maxRadius(zoom)` in `src/markers.js` — cluster radius in pixels
at a given integer zoom: `zoom >= 15 → 40`, `zoom >= 13 → 55`, else `70`. -/
def _maxRadius (zoom : Nat) : ℚ :=
  if 15 ≤ zoom then 40 else if 13 ≤ zoom then 55 else 70

/-- Largest `i ≤ k` with `i * i ≤ n` (0 when none), by structural recursion
on `k` so that the kernel can evaluate it. -/
def isqrtAux (n : Nat) : Nat → Nat
  | 0 => 0
  | k + 1 => if (k + 1) * (k + 1) ≤ n then k + 1 else isqrtAux n k

/-- Integer square root, kernel-computable (proved equal to `Nat.sqrt` in
`isqrt_eq_sqrt`). -/
def isqrt (n : Nat) : Nat := isqrtAux n n

/-- Exact integer value of `⌊u * √2⌋` for a rational `u`, computed with
natural-number square roots.  This is the executable core of the grid key
`Math.floor(x / cellSize)` used by `_preGroup`, since
`x / cellSize = x / (r / √2) = (x / r) * √2`. -/
def floorMulSqrt2 (u : ℚ) : ℤ :=
  if 0 ≤ u.num then
    (isqrt (2 * u.num.toNat ^ 2) / u.den : ℕ)
  else
    -(((isqrt (2 * u.num.natAbs ^ 2) / u.den : ℕ) : ℤ) + 1)

-- ─── Data model ──────────────────────────────────────────────────────────────

/-- A pixel position: exact rational coordinates. -/
abbrev Point : Type := ℚ × ℚ

/-- A marker handle as produced by `_buildEntry` in `src/markers.js`: an
identity (the id of the feature the handle was built from) together with the
position the handle carries (`m.getLatLng()` in the source).  Positions are
kept in the projector's reference frame, normalised so that `projScale`
returns them unchanged at zoom 13. -/
structure Marker where
  mid : Nat
  pos : ℚ × ℚ
deriving DecidableEq, Repr

/-- Modelled from the spec: the external GeometryProjector
(`projectToPixel(coordinate, zoom) -> (x, y)`, supplied by the map widget;
`map.project` in the source).  Web-mercator pixel space doubles per zoom
level; positions are normalised so that `pos` is the pixel position at
zoom 13. -/
def projScale (m : Marker) (zoom : Nat) : Point :=
  (m.pos.1 * 2 ^ zoom / 2 ^ 13, m.pos.2 * 2 ^ zoom / 2 ^ 13)

/-- The grid key of a pixel position, from `_preGroup` in `src/markers.js`:
`cellSize = _maxRadius(zoom) / Math.SQRT2` and the key is
`(Math.floor(x / cellSize), Math.floor(y / cellSize))`.  Since
`x / cellSize = (x / r) * √2`, the floors are computed by `floorMulSqrt2`
(proved exact in `floorMulSqrt2_eq_floor`). -/
def cellKeyP (zoom : Nat) (pt : Point) : ℤ × ℤ :=
  (floorMulSqrt2 (pt.1 / _maxRadius zoom), floorMulSqrt2 (pt.2 / _maxRadius zoom))

/-- Grid key of a marker under a given projector and zoom. -/
def cellKey (proj : Marker → Nat → Point) (zoom : Nat) (m : Marker) : ℤ × ℤ :=
  cellKeyP zoom (proj m zoom)

/-- One step of the `cells` map construction in `_preGroup`:
`if (!cells.has(key)) cells.set(key, []); cells.get(key).push(m)`.
JavaScript `Map` keeps keys in first-insertion order, so the cell list is an
association list where a repeated key appends to the existing bucket. -/
def insertCell (key : ℤ × ℤ) (m : Marker) :
    List ((ℤ × ℤ) × List Marker) → List ((ℤ × ℤ) × List Marker)
  | [] => [(key, [m])]
  | (k, ms) :: rest =>
      if k = key then (k, ms ++ [m]) :: rest else (k, ms) :: insertCell key m rest

/-- The `cells` map of `_preGroup`, built over already-projected markers
(the loop `for (const m of markers) { ... cells.get(key).push(m) }`). -/
def buildCells (zoom : Nat) (pairs : List (Marker × Point)) :
    List ((ℤ × ℤ) × List Marker) :=
  pairs.foldl (fun cells mp => insertCell (cellKeyP zoom mp.2) mp.1 cells) []

/-- The classification loop of `_preGroup`:
`if (cell.length < MIN_CLUSTER) solo.push(...cell) else cluster.push(...cell)`. -/
def _preGroupPts (zoom : Nat) (pairs : List (Marker × Point)) :
    List Marker × List Marker :=
  let cells := buildCells zoom pairs
  (((cells.filter (fun c => c.2.length < MIN_CLUSTER)).map (fun c => c.2)).flatten,
   ((cells.filter (fun c => ¬ c.2.length < MIN_CLUSTER)).map (fun c => c.2)).flatten)

/-- `_preGroup(map, markers)` from `src/markers.js`: project every marker at
the map's current zoom, bucket into the grid, and split buckets by
`MIN_CLUSTER`.  The `map` argument is represented by the projector function
and the current zoom. -/
def _preGroup (proj : Marker → Nat → Point) (zoom : Nat) (markers : List Marker) :
    List Marker × List Marker :=
  _preGroupPts zoom (markers.map (fun m => (m, proj m zoom)))

/-- The two destination layers (`soloGroup : L.LayerGroup` and
`clusterGroup : L.MarkerClusterGroup`), by membership. -/
structure Layers where
  solo : List Marker
  cluster : List Marker
deriving DecidableEq, Repr

/-- `_route(map, markers, clusterGroup, soloGroup)` from `src/markers.js`:
clear both groups, return early on empty input, otherwise apply the
partition (`solo.forEach(m => soloGroup.addLayer(m))`;
`if (cluster.length) clusterGroup.addLayers(cluster)`). -/
def _route (proj : Marker → Nat → Point) (zoom : Nat) (markers : List Marker)
    (layers : Layers) : Layers :=
  let _ := layers
  if markers.isEmpty then ⟨[], []⟩
  else
    let pg := _preGroup proj zoom markers
    ⟨pg.1, pg.2⟩

/-- The projection loop of `_preGroup` under a fallible projector: the first
`map.project` failure aborts the whole loop (a raised exception). -/
def projectAll (proj : Marker → Nat → Option Point) (zoom : Nat) :
    List Marker → Option (List (Marker × Point))
  | [] => some []
  | m :: rest =>
    match proj m zoom, projectAll proj zoom rest with
    | some pt, some pairs => some ((m, pt) :: pairs)
    | _, _ => none

/-- `_route` under a fallible projector (the spec's "projection unavailable"
failure: `map.project` raising during partitioning).  The Boolean reports
success.  Faithful to the statement order of `_route`: `clearLayers()` runs
on both groups before `_preGroup`, so when the partition attempt raises, the
groups have already been cleared. -/
def _routeTry (proj : Marker → Nat → Option Point) (zoom : Nat)
    (markers : List Marker) (layers : Layers) : Layers × Bool :=
  let _ := layers
  if markers.isEmpty then (⟨[], []⟩, true)
  else
    match projectAll proj zoom markers with
    | none => (⟨[], []⟩, false)
    | some pairs =>
        let pg := _preGroupPts zoom pairs
        (⟨pg.1, pg.2⟩, true)

-- ─── Features, registry entries and the public API ───────────────────────────

/-- Feature properties (`feature.properties`): the stable id plus opaque
display data, abstracted as a tag. -/
structure Props where
  pid : Nat
  tag : Nat
deriving DecidableEq, Repr

/-- A GeoJSON feature as consumed by `_buildEntry`: `geometry.coordinates`
may be absent (`none`) and individual coordinates may be non-numeric
(`some` of `none`). -/
structure Feature where
  geometry : Option (List (Option ℚ))
  props : Props
deriving DecidableEq, Repr

/-- A registry entry (`{ marker, el, props }` from `_buildEntry`; the DOM
element is display-only and not modelled). -/
structure Entry where
  marker : Marker
  props : Props
deriving DecidableEq, Repr

/-- `_buildEntry(feature, onMarkerClick)` from `src/markers.js`.
`const [lng, lat] = feature.geometry.coordinates` throws when `geometry` is
absent; `L.marker([lat, lng])` (external Leaflet, modelled from its
documented contract, matching the spec's "malformed feature must be
rejected") throws `Invalid LatLng` when either coordinate is missing or
non-numeric.  Click wiring is display-only and not modelled. -/
def _buildEntry (f : Feature) : Except String Entry :=
  match f.geometry with
  | none => .error "TypeError: cannot read coordinates"
  | some coords =>
    match coords[0]?, coords[1]? with
    | some (some lng), some (some lat) =>
        .ok ⟨⟨f.props.pid, (lat, lng)⟩, f.props⟩
    | _, _ => .error "Invalid LatLng"

/-- A feature with a missing or invalid coordinate (the complement of the
success condition of `_buildEntry`). -/
def malformed (f : Feature) : Bool :=
  match f.geometry with
  | none => true
  | some coords =>
    match coords[0]?, coords[1]? with
    | some (some _), some (some _) => false
    | _, _ => true

/-- JavaScript `Map.set` on an association list: replace in place when the
key exists (keeping its insertion position), otherwise append. -/
def mapSet (reg : List (Nat × Entry)) (k : Nat) (v : Entry) : List (Nat × Entry) :=
  match reg with
  | [] => [(k, v)]
  | (k0, v0) :: rest => if k0 = k then (k0, v) :: rest else (k0, v0) :: mapSet rest k v

/-- The shared build loop of `renderMarkers` and `addMarkersToGroup`:
`for (const feature of features) { const entry = _buildEntry(...);
registry.set(entry.props.id, entry); markers.push(entry.marker) }`.
A throw inside `_buildEntry` aborts the loop and propagates. -/
def buildAll : List Feature → List (Nat × Entry) → List Marker →
    Except String (List (Nat × Entry) × List Marker)
  | [], reg, ms => .ok (reg, ms)
  | f :: rest, reg, ms =>
    match _buildEntry f with
    | .error e => .error e
    | .ok entry => buildAll rest (mapSet reg entry.props.pid entry) (ms ++ [entry.marker])

/-- `renderMarkers(map, features, onMarkerClick)` from `src/markers.js`:
build the registry and marker list, then `_route` everything into fresh
groups.  The group construction options are display-only. -/
def renderMarkers (proj : Marker → Nat → Point) (zoom : Nat)
    (features : List Feature) : Except String (List (Nat × Entry) × Layers) :=
  (buildAll features [] []).map (fun rm => (rm.1, _route proj zoom rm.2 ⟨[], []⟩))

/-- `addMarkersToGroup(clusterGroup, features, onMarkerClick)` from
`src/markers.js`: build a partial registry and stage the new markers into
the cluster group via `addLayers`. -/
def addMarkersToGroup (clusterGroup : List Marker) (features : List Feature) :
    Except String (List (Nat × Entry) × List Marker) :=
  (buildAll features [] []).map (fun rm => (rm.1, clusterGroup ++ rm.2))

/-- `applyMarkerFilter(map, registry, clusterGroup, soloGroup, predicate)`
from `src/markers.js`: collect the markers whose props satisfy the
predicate, in registry iteration order, and `_route` them. -/
def applyMarkerFilter (proj : Marker → Nat → Point) (zoom : Nat)
    (registry : List (Nat × Entry)) (layers : Layers) (pred : Props → Bool) :
    Layers :=
  _route proj zoom
    (((registry.map (fun kv => kv.2)).filter (fun e => pred e.props)).map
      (fun e => e.marker))
    layers

/-- `mergeFeatures(newFeatures)` from `src/store.js`, as a pure function of
the cached features: drop every incoming feature whose id is already cached,
append the rest, and return the genuinely new ones.  (When nothing is new
the source skips the write, which leaves the same store contents.) -/
def mergeFeatures (cached newFeatures : List Feature) :
    List Feature × List Feature :=
  let existingIds := cached.map (fun f => f.props.pid)
  let toAdd := newFeatures.filter (fun f => ¬ existingIds.contains f.props.pid)
  (cached ++ toAdd, toAdd)

-- ─── Concrete sample data (used by witnesses and counterexamples) ────────────

/-- A marker whose pixel position at zoom 13 is `(20, 0)`. -/
def mA : Marker := ⟨0, (20, 0)⟩

/-- A marker whose pixel position at zoom 13 is `(70, 0)` — 50 px from `mA`. -/
def mB : Marker := ⟨1, (70, 0)⟩

/-- A family of pairwise-distinct co-located markers. -/
def mkAt (i : Nat) : Marker := ⟨i, (0, 0)⟩

/-- Nine co-located markers. -/
def M9 : List Marker := (List.range 9).map mkAt

/-- Ten co-located markers. -/
def M10 : List Marker := (List.range 10).map mkAt

/-- A feature with no geometry. -/
def badFeature : Feature := ⟨none, ⟨99, 0⟩⟩

/-- A well-formed feature. -/
def goodFeature : Feature := ⟨some [some 0, some 0], ⟨1, 0⟩⟩

/-- Two well-formed features sharing the id 5 (a duplicate-id batch). -/
def dupFeatures : List Feature :=
  [⟨some [some 1, some 2], ⟨5, 0⟩⟩, ⟨some [some 3, some 4], ⟨5, 1⟩⟩]

/-- The expected `renderMarkers` output for `dupFeatures`: one registry
entry for id 5 holding the later feature's entry; both markers routed solo
(two markers < `MIN_CLUSTER`). -/
def dupResult : List (Nat × Entry) × Layers :=
  ([(5, ⟨⟨5, (4, 3)⟩, ⟨5, 1⟩⟩)], ⟨[⟨5, (2, 1)⟩, ⟨5, (4, 3)⟩], []⟩)

/-- A projector that always fails (widget not ready). -/
def projFail (m : Marker) (zoom : Nat) : Option Point :=
  let _ := m
  let _ := zoom
  none

-- ─── Arithmetic lemmas for the grid floor ────────────────────────────────────

lemma isqrtAux_spec (n : Nat) :
    ∀ k, n < (k + 1) * (k + 1) →
      isqrtAux n k * isqrtAux n k ≤ n ∧ n < (isqrtAux n k + 1) * (isqrtAux n k + 1)
  | 0 => fun h => by simpa [isqrtAux] using h
  | k + 1 => fun h => by
    by_cases hk : (k + 1) * (k + 1) ≤ n
    · simp only [isqrtAux, if_pos hk]
      exact ⟨hk, h⟩
    · simp only [isqrtAux, if_neg hk]
      exact isqrtAux_spec n k (by omega)

lemma isqrt_spec (n : Nat) :
    isqrt n * isqrt n ≤ n ∧ n < (isqrt n + 1) * (isqrt n + 1) :=
  isqrtAux_spec n n (by nlinarith)

lemma isqrt_eq_sqrt (n : Nat) : isqrt n = Nat.sqrt n := by
  obtain ⟨h1, h2⟩ := isqrt_spec n
  have ha : isqrt n ≤ Nat.sqrt n := Nat.le_sqrt.mpr h1
  have hb : Nat.sqrt n < isqrt n + 1 := Nat.sqrt_lt.mpr h2
  omega

lemma floor_sqrt_nat_div_nat (N d : ℕ) (hd : 0 < d) :
    ⌊Real.sqrt (N : ℝ) / (d : ℝ)⌋ = ((Nat.sqrt N / d : ℕ) : ℤ) := by
  have h0 : (0:ℝ) ≤ Real.sqrt (N : ℝ) / (d : ℝ) := by positivity
  have h2 : (0:ℤ) ≤ ⌊Real.sqrt (N : ℝ) / (d : ℝ)⌋ := Int.floor_nonneg.mpr h0
  rw [← Int.toNat_of_nonneg h2, Int.floor_toNat, Nat.floor_div_nat,
    Real.nat_floor_real_sqrt_eq_nat_sqrt]

lemma sqrt_two_mul_sq (n : ℕ) :
    Real.sqrt ((2 * n ^ 2 : ℕ) : ℝ) = (n : ℝ) * Real.sqrt 2 := by
  have h : ((2 * n ^ 2 : ℕ) : ℝ) = ((n : ℝ)) ^ 2 * 2 := by push_cast; ring
  rw [h, Real.sqrt_mul (sq_nonneg _) 2, Real.sqrt_sq (by positivity)]

/-- The executable grid-coordinate function computes exactly the real-number
floor `⌊u * √2⌋`. -/
theorem floorMulSqrt2_eq_floor (u : ℚ) :
    floorMulSqrt2 u = ⌊(u : ℝ) * Real.sqrt 2⌋ := by
  have hdpos : 0 < u.den := u.pos
  have hd : (0:ℝ) < (u.den : ℝ) := by exact_mod_cast hdpos
  rcases le_or_lt 0 u.num with hp | hp
  · have hkey : (u : ℝ) * Real.sqrt 2 =
        Real.sqrt ((2 * u.num.toNat ^ 2 : ℕ) : ℝ) / (u.den : ℝ) := by
      rw [sqrt_two_mul_sq, Rat.cast_def]
      rw [show ((u.num.toNat : ℕ) : ℝ) = (u.num : ℝ) by
        exact_mod_cast Int.toNat_of_nonneg hp]
      ring
    simp only [floorMulSqrt2, isqrt_eq_sqrt]
    rw [if_pos hp, hkey, floor_sqrt_nat_div_nat _ _ hdpos]
  · have hne : u.num.natAbs ≠ 0 := Int.natAbs_ne_zero.mpr (by omega)
    have hnum : (u.num : ℝ) = -((u.num.natAbs : ℕ) : ℝ) := by
      have h2 : u.num = -(u.num.natAbs : ℤ) := by omega
      exact_mod_cast h2
    have hkey : (u : ℝ) * Real.sqrt 2 =
        -(Real.sqrt ((2 * u.num.natAbs ^ 2 : ℕ) : ℝ) / (u.den : ℝ)) := by
      rw [sqrt_two_mul_sq, Rat.cast_def, hnum]
      ring
    have hirr : Irrational (Real.sqrt ((2 * u.num.natAbs ^ 2 : ℕ) : ℝ) / (u.den : ℝ)) := by
      have hform : Real.sqrt ((2 * u.num.natAbs ^ 2 : ℕ) : ℝ) / (u.den : ℝ) =
          ((u.num.natAbs / u.den : ℚ) : ℝ) * Real.sqrt 2 := by
        rw [sqrt_two_mul_sq]
        push_cast
        ring
      rw [hform]
      refine irrational_sqrt_two.rat_mul ?_
      exact div_ne_zero (by exact_mod_cast hne) (by exact_mod_cast hdpos.ne')
    set z := Real.sqrt ((2 * u.num.natAbs ^ 2 : ℕ) : ℝ) / (u.den : ℝ) with hzdef
    have hlt : (⌊z⌋ : ℝ) < z :=
      lt_of_le_of_ne (Int.floor_le z) (fun h => hirr.ne_int ⌊z⌋ h.symm)
    have hceil : ⌈z⌉ = ⌊z⌋ + 1 :=
      le_antisymm (Int.ceil_le_floor_add_one z)
        (by rw [Int.add_one_le_iff]; exact Int.lt_ceil.mpr hlt)
    have hzfloor : ⌊z⌋ = ((Nat.sqrt (2 * u.num.natAbs ^ 2) / u.den : ℕ) : ℤ) :=
      floor_sqrt_nat_div_nat _ _ hdpos
    simp only [floorMulSqrt2, isqrt_eq_sqrt]
    rw [if_neg (by omega), hkey, Int.floor_neg, hceil, hzfloor]

/-- Equal grid coordinates force the underlying rationals within `√(1/2)` of
each other: `(u - v)² < 1/2`. -/
lemma sq_sub_lt_of_floorMulSqrt2_eq {u v : ℚ}
    (h : floorMulSqrt2 u = floorMulSqrt2 v) :
    ((u : ℝ) - (v : ℝ)) ^ 2 < 1 / 2 := by
  rw [floorMulSqrt2_eq_floor u, floorMulSqrt2_eq_floor v] at h
  have h1 : |(u : ℝ) * Real.sqrt 2 - (v : ℝ) * Real.sqrt 2| < 1 :=
    Int.abs_sub_lt_one_of_floor_eq_floor h
  have hsq : ((u : ℝ) * Real.sqrt 2 - (v : ℝ) * Real.sqrt 2) ^ 2 < 1 := by
    have := abs_nonneg ((u : ℝ) * Real.sqrt 2 - (v : ℝ) * Real.sqrt 2)
    nlinarith [sq_abs ((u : ℝ) * Real.sqrt 2 - (v : ℝ) * Real.sqrt 2)]
  have h2 : ((u : ℝ) - (v : ℝ)) ^ 2 * 2 < 1 := by
    have hs : Real.sqrt 2 ^ 2 = 2 := Real.sq_sqrt (by norm_num)
    nlinarith [hs]
  linarith

-- ─── List lemmas for the partition ───────────────────────────────────────────

lemma insertCell_flatten_perm (key : ℤ × ℤ) (m : Marker)
    (cells : List ((ℤ × ℤ) × List Marker)) :
    (((insertCell key m cells).map (fun c => c.2)).flatten).Perm
      (((cells.map (fun c => c.2)).flatten) ++ [m]) := by
  induction cells with
  | nil => simp [insertCell]
  | cons c rest ih =>
    obtain ⟨k, ms⟩ := c
    by_cases hk : k = key
    · simp only [insertCell, if_pos hk, List.map_cons, List.flatten_cons]
      rw [List.append_assoc, List.append_assoc]
      exact List.Perm.append_left ms List.perm_append_comm
    · simp only [insertCell, if_neg hk, List.map_cons, List.flatten_cons]
      rw [List.append_assoc]
      exact List.Perm.append_left ms ih

lemma buildCells_flatten_perm (zoom : Nat) (pairs : List (Marker × Point)) :
    ∀ acc : List ((ℤ × ℤ) × List Marker),
    (((pairs.foldl (fun cells mp => insertCell (cellKeyP zoom mp.2) mp.1 cells)
        acc).map (fun c => c.2)).flatten).Perm
      (((acc.map (fun c => c.2)).flatten) ++ pairs.map (fun mp => mp.1)) := by
  induction pairs with
  | nil => intro acc; simp
  | cons mp rest ih =>
    intro acc
    simp only [List.foldl_cons, List.map_cons]
    refine (ih _).trans ?_
    refine (List.Perm.append_right _ (insertCell_flatten_perm _ _ _)).trans ?_
    rw [List.append_assoc]
    exact List.Perm.refl _

lemma flatten_filter_split (p : ((ℤ × ℤ) × List Marker) → Bool)
    (cells : List ((ℤ × ℤ) × List Marker)) :
    ((((cells.filter p).map (fun c => c.2)).flatten) ++
      (((cells.filter (fun c => !(p c))).map (fun c => c.2)).flatten)).Perm
      ((cells.map (fun c => c.2)).flatten) := by
  induction cells with
  | nil => simp
  | cons c rest ih =>
    by_cases hp : p c
    · simp only [List.filter_cons, hp, Bool.not_true, List.map_cons,
        List.flatten_cons, if_true, if_false, Bool.false_eq_true]
      rw [List.append_assoc]
      exact List.Perm.append_left c.2 ih
    · have hp2 : p c = false := by simpa using hp
      simp only [List.filter_cons, hp2, Bool.not_false, List.map_cons,
        List.flatten_cons, if_true, if_false, Bool.false_eq_true]
      have step1 : ((((rest.filter p).map (fun c => c.2)).flatten ++ c.2) ++
          ((rest.filter (fun c => !(p c))).map (fun c => c.2)).flatten).Perm
          ((c.2 ++ ((rest.filter p).map (fun c => c.2)).flatten) ++
          ((rest.filter (fun c => !(p c))).map (fun c => c.2)).flatten) :=
        List.Perm.append_right _ List.perm_append_comm
      have step2 : ((c.2 ++ ((rest.filter p).map (fun c => c.2)).flatten) ++
          ((rest.filter (fun c => !(p c))).map (fun c => c.2)).flatten).Perm
          (c.2 ++ (rest.map (fun c => c.2)).flatten) := by
        rw [List.append_assoc]
        exact List.Perm.append_left c.2 ih
      rw [← List.append_assoc]
      exact step1.trans step2

lemma preGroupPts_perm (zoom : Nat) (pairs : List (Marker × Point)) :
    ((_preGroupPts zoom pairs).1 ++ (_preGroupPts zoom pairs).2).Perm
      (pairs.map (fun mp => mp.1)) := by
  unfold _preGroupPts
  have hfix : (fun c : (ℤ × ℤ) × List Marker => decide (¬ c.2.length < MIN_CLUSTER)) =
      (fun c : (ℤ × ℤ) × List Marker => !(decide (c.2.length < MIN_CLUSTER))) := by
    funext c
    by_cases h : c.2.length < MIN_CLUSTER
    · simp [h]
    · simp [h]
  simp only [hfix]
  refine (flatten_filter_split (fun c => decide (c.2.length < MIN_CLUSTER))
    (buildCells zoom pairs)).trans ?_
  refine (buildCells_flatten_perm zoom pairs []).trans ?_
  simp

lemma preGroup_perm (proj : Marker → Nat → Point) (zoom : Nat)
    (M : List Marker) :
    ((_preGroup proj zoom M).1 ++ (_preGroup proj zoom M).2).Perm M := by
  unfold _preGroup
  refine (preGroupPts_perm zoom _).trans ?_
  have h : (List.map ((fun mp : Marker × Point => mp.1) ∘ fun m => (m, proj m zoom)) M)
      = M := by
    induction M with
    | nil => rfl
    | cons m rest ih => simpa [Function.comp] using ih
  rw [List.map_map, h]

lemma preGroup_disjoint (proj : Marker → Nat → Point) (zoom : Nat)
    (M : List Marker) (hnd : M.Nodup) (m : Marker) :
    ¬(m ∈ (_preGroup proj zoom M).1 ∧ m ∈ (_preGroup proj zoom M).2) := by
  have hperm := preGroup_perm proj zoom M
  have hnodup : ((_preGroup proj zoom M).1 ++ (_preGroup proj zoom M).2).Nodup :=
    hperm.symm.nodup hnd
  rw [List.nodup_append] at hnodup
  rintro ⟨h1, h2⟩
  exact hnodup.2.2 h1 h2

-- ─── C2: the partition is exhaustive and disjoint ────────────────────────────

/-- C2: for every marker list `M` and zoom `z`, the partition returned by
`_preGroup` is exhaustive and disjoint: `solo ++ cluster` is a permutation
of `M` (so every routed marker lands in exactly one of the two layers), and
for duplicate-free input no marker is in both parts. -/
theorem C2_preGroup_exhaustive_disjoint (proj : Marker → Nat → Point)
    (zoom : Nat) (M : List Marker) :
    ((_preGroup proj zoom M).1 ++ (_preGroup proj zoom M).2).Perm M ∧
      (M.Nodup → ∀ m : Marker,
        ¬(m ∈ (_preGroup proj zoom M).1 ∧ m ∈ (_preGroup proj zoom M).2)) :=
  ⟨preGroup_perm proj zoom M, fun hnd m => preGroup_disjoint proj zoom M hnd m⟩

/-- Witness for C2 at a concrete input: two distinct markers at zoom 13. -/
theorem C2_preGroup_exhaustive_disjoint_witness :
    ([mA, mB] : List Marker).Nodup ∧
      (((_preGroup projScale 13 [mA, mB]).1 ++
        (_preGroup projScale 13 [mA, mB]).2).Perm [mA, mB] ∧
      ∀ m : Marker, ¬(m ∈ (_preGroup projScale 13 [mA, mB]).1 ∧
        m ∈ (_preGroup projScale 13 [mA, mB]).2)) :=
  ⟨by decide,
   (C2_preGroup_exhaustive_disjoint projScale 13 [mA, mB]).1,
   (C2_preGroup_exhaustive_disjoint projScale 13 [mA, mB]).2 (by decide)⟩

-- ─── C4: routing is idempotent and deterministic ─────────────────────────────

/-- C4: `_route` is idempotent and deterministic: routing the same
`(markers, zoom)` again — in particular on top of the layer state the first
call produced — yields exactly the same layer membership, and the result
never depends on the prior layer state. -/
theorem C4_route_idempotent (proj : Marker → Nat → Point) (zoom : Nat)
    (M : List Marker) (L L' : Layers) :
    _route proj zoom M (_route proj zoom M L) = _route proj zoom M L ∧
      _route proj zoom M L = _route proj zoom M L' :=
  ⟨rfl, rfl⟩

-- ─── C9: the empty input routes to two empty layers without error ────────────

/-- C9: for the empty marker list `_route` raises no error and leaves both
layers empty; also under a fallible projector the empty input succeeds
(`_route` returns before any projection is attempted). -/
theorem C9_route_empty (proj : Marker → Nat → Point)
    (projF : Marker → Nat → Option Point) (zoom : Nat) (L : Layers) :
    _route proj zoom [] L = ⟨[], []⟩ ∧
      _routeTry projF zoom [] L = (⟨[], []⟩, true) :=
  ⟨rfl, rfl⟩

-- ─── Membership characterisation of the partition ────────────────────────────

lemma mem_preGroupPts_cluster (zoom : Nat) (pairs : List (Marker × Point))
    (m : Marker) :
    m ∈ (_preGroupPts zoom pairs).2 ↔
      ∃ c ∈ buildCells zoom pairs, m ∈ c.2 ∧ MIN_CLUSTER ≤ c.2.length := by
  unfold _preGroupPts
  simp only [List.mem_flatten, List.mem_map, List.mem_filter, decide_eq_true_eq,
    Nat.not_lt]
  constructor
  · rintro ⟨l, ⟨c, ⟨hc, hlen⟩, hcl⟩, hm⟩
    exact ⟨c, hc, hcl ▸ hm, hlen⟩
  · rintro ⟨c, hc, hm, hlen⟩
    exact ⟨c.2, ⟨c, ⟨hc, hlen⟩, rfl⟩, hm⟩

lemma mem_preGroupPts_solo (zoom : Nat) (pairs : List (Marker × Point))
    (m : Marker) :
    m ∈ (_preGroupPts zoom pairs).1 ↔
      ∃ c ∈ buildCells zoom pairs, m ∈ c.2 ∧ c.2.length < MIN_CLUSTER := by
  unfold _preGroupPts
  simp only [List.mem_flatten, List.mem_map, List.mem_filter, decide_eq_true_eq]
  constructor
  · rintro ⟨l, ⟨c, ⟨hc, hlen⟩, hcl⟩, hm⟩
    exact ⟨c, hc, hcl ▸ hm, hlen⟩
  · rintro ⟨c, hc, hm, hlen⟩
    exact ⟨c.2, ⟨c, ⟨hc, hlen⟩, rfl⟩, hm⟩

-- ─── C3: cells route wholesale by the MIN_CLUSTER threshold ──────────────────

/-- C3: a cell's members all go to the cluster set iff the cell holds at
least `MIN_CLUSTER` markers, and all go to the solo set otherwise (for a
duplicate-free marker list — each handle is a distinct object in the
source). -/
theorem C3_threshold (proj : Marker → Nat → Point) (zoom : Nat)
    (M : List Marker) (c : (ℤ × ℤ) × List Marker) (hnd : M.Nodup)
    (hc : c ∈ buildCells zoom (M.map (fun m => (m, proj m zoom))))
    (m : Marker) (hm : m ∈ c.2) :
    (m ∈ (_preGroup proj zoom M).2 ↔ MIN_CLUSTER ≤ c.2.length) ∧
      (m ∈ (_preGroup proj zoom M).1 ↔ c.2.length < MIN_CLUSTER) := by
  have hsolo : c.2.length < MIN_CLUSTER → m ∈ (_preGroup proj zoom M).1 :=
    fun h => (mem_preGroupPts_solo zoom _ m).mpr ⟨c, hc, hm, h⟩
  have hclus : MIN_CLUSTER ≤ c.2.length → m ∈ (_preGroup proj zoom M).2 :=
    fun h => (mem_preGroupPts_cluster zoom _ m).mpr ⟨c, hc, hm, h⟩
  have hdisj := preGroup_disjoint proj zoom M hnd m
  constructor
  · constructor
    · intro hmem
      by_contra hnle
      exact hdisj ⟨hsolo (Nat.lt_of_not_le hnle), hmem⟩
    · exact hclus
  · constructor
    · intro hmem
      by_contra hnlt
      exact hdisj ⟨hmem, hclus (Nat.le_of_not_lt hnlt)⟩
    · exact hsolo

unseal Rat.mul Rat.add Rat.sub Rat.inv in
/-- Witness for C3: ten co-located markers form one cell that routes
entirely to the cluster set, while nine co-located markers all route solo. -/
theorem C3_threshold_witness :
    (M10.Nodup ∧
      ((0, 0), M10) ∈ buildCells 13 (M10.map (fun m => (m, projScale m 13))) ∧
      mkAt 0 ∈ M10 ∧
      (mkAt 0 ∈ (_preGroup projScale 13 M10).2 ↔ MIN_CLUSTER ≤ M10.length)) ∧
    (M9.Nodup ∧
      ((0, 0), M9) ∈ buildCells 13 (M9.map (fun m => (m, projScale m 13))) ∧
      mkAt 0 ∈ M9 ∧
      (mkAt 0 ∈ (_preGroup projScale 13 M9).1 ↔ M9.length < MIN_CLUSTER)) ∧
    (_preGroup projScale 13 M9).1 = M9 ∧ (_preGroup projScale 13 M9).2 = [] ∧
    (_preGroup projScale 13 M10).2 = M10 ∧ (_preGroup projScale 13 M10).1 = [] :=
  ⟨⟨by decide, by decide, by decide,
    (C3_threshold projScale 13 M10 ((0, 0), M10) (by decide) (by decide)
      (mkAt 0) (by decide)).1⟩,
   ⟨by decide, by decide, by decide,
    (C3_threshold projScale 13 M9 ((0, 0), M9) (by decide) (by decide)
      (mkAt 0) (by decide)).2⟩,
   by decide, by decide, by decide, by decide⟩

-- ─── C1: cell size is maxRadius / √2, so cells have diameter ≤ maxRadius ─────

lemma maxRadius_pos (zoom : Nat) : 0 < _maxRadius zoom := by
  unfold _maxRadius
  by_cases h15 : 15 ≤ zoom
  · simp [h15]
  · by_cases h13 : 13 ≤ zoom <;> simp [h15, h13]

/-- C1: the partitioner's grid cell size is `maxClusterRadius(zoom) / √2` —
the grid coordinate computed by the code is exactly
`⌊x / (maxRadius zoom / √2)⌋` — and consequently any two markers in the
same cell are at most `maxClusterRadius(zoom)` apart in pixel space at that
zoom (stated with squared distances: `Δx² + Δy² ≤ r²`). -/
theorem C1_cellSize_sqrt2 :
    (∀ x r : ℚ, 0 < r →
      floorMulSqrt2 (x / r) = ⌊(x : ℝ) / ((r : ℝ) / Real.sqrt 2)⌋) ∧
    (∀ (proj : Marker → Nat → Point) (zoom : Nat) (m₁ m₂ : Marker),
      cellKey proj zoom m₁ = cellKey proj zoom m₂ →
      ((proj m₁ zoom).1 - (proj m₂ zoom).1) ^ 2 +
        ((proj m₁ zoom).2 - (proj m₂ zoom).2) ^ 2 ≤ _maxRadius zoom ^ 2) := by
  constructor
  · intro x r hr
    rw [floorMulSqrt2_eq_floor]
    congr 1
    have hrne : (r : ℝ) ≠ 0 := by exact_mod_cast hr.ne'
    have hs : Real.sqrt 2 ≠ 0 := by positivity
    push_cast
    field_simp
  · intro proj zoom m₁ m₂ hkey
    have hr : 0 < _maxRadius zoom := maxRadius_pos zoom
    have hrR : (0:ℝ) < ((_maxRadius zoom : ℚ) : ℝ) := by exact_mod_cast hr
    have hrne : ((_maxRadius zoom : ℚ) : ℝ) ≠ 0 := hrR.ne'
    unfold cellKey cellKeyP at hkey
    rw [Prod.mk.injEq] at hkey
    obtain ⟨hxk, hyk⟩ := hkey
    have hx2 := sq_sub_lt_of_floorMulSqrt2_eq hxk
    have hy2 := sq_sub_lt_of_floorMulSqrt2_eq hyk
    push_cast at hx2 hy2
    have ex : (((proj m₁ zoom).1 - (proj m₂ zoom).1 : ℚ) : ℝ) =
        (((proj m₁ zoom).1 : ℝ) / ((_maxRadius zoom : ℚ) : ℝ) -
         ((proj m₂ zoom).1 : ℝ) / ((_maxRadius zoom : ℚ) : ℝ)) *
          ((_maxRadius zoom : ℚ) : ℝ) := by
      push_cast
      field_simp
    have ey : (((proj m₁ zoom).2 - (proj m₂ zoom).2 : ℚ) : ℝ) =
        (((proj m₁ zoom).2 : ℝ) / ((_maxRadius zoom : ℚ) : ℝ) -
         ((proj m₂ zoom).2 : ℝ) / ((_maxRadius zoom : ℚ) : ℝ)) *
          ((_maxRadius zoom : ℚ) : ℝ) := by
      push_cast
      field_simp
    have key : (((proj m₁ zoom).1 - (proj m₂ zoom).1 : ℚ) : ℝ) ^ 2 +
        (((proj m₁ zoom).2 - (proj m₂ zoom).2 : ℚ) : ℝ) ^ 2 <
        ((_maxRadius zoom : ℚ) : ℝ) ^ 2 := by
      rw [ex, ey, mul_pow, mul_pow]
      have h1 := mul_lt_mul_of_pos_right hx2 (show (0:ℝ) < ((_maxRadius zoom : ℚ) : ℝ) ^ 2 by positivity)
      have h2 := mul_lt_mul_of_pos_right hy2 (show (0:ℝ) < ((_maxRadius zoom : ℚ) : ℝ) ^ 2 by positivity)
      nlinarith [h1, h2]
    have hlt : ((proj m₁ zoom).1 - (proj m₂ zoom).1) ^ 2 +
        ((proj m₁ zoom).2 - (proj m₂ zoom).2) ^ 2 < _maxRadius zoom ^ 2 := by
      exact_mod_cast key
    exact hlt.le

unseal Rat.mul Rat.add Rat.sub Rat.inv in
/-- Witness for C1: the cell-size equation applied at `x = 3`, `r = 55`, and
the diameter bound applied to two coincident markers at zoom 13. -/
theorem C1_cellSize_sqrt2_witness :
    (0 < (55 : ℚ) ∧
      floorMulSqrt2 (3 / 55) = ⌊(3 : ℝ) / ((55 : ℝ) / Real.sqrt 2)⌋) ∧
    (cellKey projScale 13 mA = cellKey projScale 13 mA ∧
      ((projScale mA 13).1 - (projScale mA 13).1) ^ 2 +
        ((projScale mA 13).2 - (projScale mA 13).2) ^ 2 ≤ _maxRadius 13 ^ 2) :=
  ⟨⟨by decide, C1_cellSize_sqrt2.1 3 55 (by decide)⟩,
   ⟨rfl, C1_cellSize_sqrt2.2 projScale 13 mA mA rfl⟩⟩

-- ─── C5: zoom sensitivity of the partition ───────────────────────────────────

unseal Rat.mul Rat.add Rat.sub Rat.inv in
/-- C5: the markers `mA`, `mB` are exactly 50 px apart at zoom 13 (where
`maxClusterRadius = 55`, `cellSize = 55/√2 ≈ 38.9`): they fall in separate
grid cells, so the partitioner does not force them into one cluster; at
every zoom ≤ 12 (`maxClusterRadius = 70`, `cellSize = 70/√2 ≈ 49.5`) the
same two markers share one cell and are forced to merge. -/
theorem C5_zoom_sensitivity :
    (_maxRadius 13 = 55 ∧ _maxRadius 12 = 70) ∧
    ((projScale mB 13).1 - (projScale mA 13).1) ^ 2 +
      ((projScale mB 13).2 - (projScale mA 13).2) ^ 2 = 50 ^ 2 ∧
    cellKey projScale 13 mA ≠ cellKey projScale 13 mB ∧
    ∀ zoom : Nat, zoom ≤ 12 → cellKey projScale zoom mA = cellKey projScale zoom mB := by
  refine ⟨⟨by decide, by decide⟩, by decide, by decide, ?_⟩
  intro zoom hz
  interval_cases zoom <;> decide

unseal Rat.mul Rat.add Rat.sub Rat.inv in
/-- Witness for C5 with the bounded-zoom hypothesis discharged at zoom 10. -/
theorem C5_zoom_sensitivity_witness :
    (10 : Nat) ≤ 12 ∧ cellKey projScale 10 mA = cellKey projScale 10 mB :=
  ⟨by decide, C5_zoom_sensitivity.2.2.2 10 (by decide)⟩

-- ─── C6: filter round-trip ───────────────────────────────────────────────────

/-- C6: applying `applyMarkerFilter` with an always-true predicate, then an
always-false predicate, then an always-true predicate leaves the layers
exactly as after the first always-true application; the always-false pass
empties both layers; and in general `applyMarkerFilter` routes precisely the
markers whose props satisfy the predicate. -/
theorem C6_filter_roundtrip (proj : Marker → Nat → Point) (zoom : Nat)
    (registry : List (Nat × Entry)) (L0 : Layers) :
    (applyMarkerFilter proj zoom registry
        (applyMarkerFilter proj zoom registry
          (applyMarkerFilter proj zoom registry L0 (fun _ => true))
          (fun _ => false))
        (fun _ => true) =
      applyMarkerFilter proj zoom registry L0 (fun _ => true)) ∧
    (applyMarkerFilter proj zoom registry
        (applyMarkerFilter proj zoom registry L0 (fun _ => true))
        (fun _ => false) = ⟨[], []⟩) ∧
    (∀ (pred : Props → Bool) (L : Layers),
      applyMarkerFilter proj zoom registry L pred =
        _route proj zoom
          (((registry.map (fun kv => kv.2)).filter (fun e => pred e.props)).map
            (fun e => e.marker))
          L) := by
  refine ⟨rfl, ?_, fun pred L => rfl⟩
  unfold applyMarkerFilter
  simp [_route]

-- ─── C7: routing failure does NOT preserve prior layer state ─────────────────

/-- C7 counterexample: with one marker previously in the solo layer, a
routing attempt that fails during partitioning (projection unavailable)
leaves the layers cleared, not at their prior membership — the source clears
both groups before calling `_preGroup`. -/
theorem C7_failSafe_counterexample :
    ¬((_routeTry projFail 13 [mA] ⟨[mB], []⟩).1 = ⟨[mB], []⟩) := by decide

/-- C7 (amended): when a routing attempt fails during partitioning, both
layers end empty — `clearLayers()` runs before `_preGroup`, so the failure
leaves the cleared state, not the prior membership. -/
theorem C7_failSafe_amended (projF : Marker → Nat → Option Point) (zoom : Nat)
    (markers : List Marker) (L : Layers)
    (h : (_routeTry projF zoom markers L).2 = false) :
    (_routeTry projF zoom markers L).1 = ⟨[], []⟩ := by
  unfold _routeTry at h ⊢
  cases he : markers.isEmpty with
  | true => simp [he] at h
  | false =>
    simp only [Bool.false_eq_true, if_false] at h ⊢
    cases hm : projectAll projF zoom markers with
    | none => rfl
    | some pairs =>
      rcases markers with _ | ⟨m, ms⟩
      · simp at he
      · rw [hm] at h
        simp at h

/-- Witness for the amended C7 at a concrete failing input. -/
theorem C7_failSafe_amended_witness :
    ((_routeTry projFail 13 [mA] ⟨[mB], []⟩).2 = false) ∧
      (_routeTry projFail 13 [mA] ⟨[mB], []⟩).1 = ⟨[], []⟩ :=
  ⟨by decide, C7_failSafe_amended projFail 13 [mA] ⟨[mB], []⟩ (by decide)⟩

-- ─── C8: malformed features are rejected before the partitioner ──────────────

lemma buildEntry_cases (f : Feature) :
    (malformed f = true → ∃ e, _buildEntry f = Except.error e) ∧
      (malformed f = false → ∃ v, _buildEntry f = Except.ok v) := by
  unfold malformed _buildEntry
  cases hg : f.geometry with
  | none => simp
  | some coords =>
    cases h0 : coords[0]? with
    | none => simp [h0]
    | some o0 =>
      cases o0 with
      | none => simp [h0]
      | some x0 =>
        cases h1 : coords[1]? with
        | none => simp [h0, h1]
        | some o1 => cases o1 <;> simp [h0, h1]

lemma buildAll_ok_iff (features : List Feature) :
    ∀ reg ms, (∃ v, buildAll features reg ms = Except.ok v) ↔
      ∀ f ∈ features, malformed f = false := by
  induction features with
  | nil => intro reg ms; simp [buildAll]
  | cons f rest ih =>
    intro reg ms
    cases hb : _buildEntry f with
    | error e =>
      have hm : malformed f = true := by
        rcases hmc : malformed f with _ | _
        · rcases (buildEntry_cases f).2 hmc with ⟨v, hv⟩
          rw [hv] at hb
          cases hb
        · rfl
      simp [buildAll, hb, hm]
    | ok entry =>
      have hm : malformed f = false := by
        rcases hmc : malformed f with _ | _
        · rfl
        · rcases (buildEntry_cases f).1 hmc with ⟨e, he⟩
          rw [he] at hb
          cases hb
      simp [buildAll, hb, hm, ih]

lemma except_error_of_not_ok {α β : Type} (x : Except α β)
    (h : ¬ ∃ v, x = Except.ok v) : ∃ e, x = Except.error e := by
  cases x with
  | error e => exact ⟨e, rfl⟩
  | ok v => exact absurd ⟨v, rfl⟩ h

/-- C8: a feature with a missing or invalid coordinate presented to
`renderMarkers` or `addMarkersToGroup` makes the call fail with a reported
error — raised in `_buildEntry`, before `_route`/`_preGroup` ever runs — and
is never silently dropped: the call succeeds exactly when every input
feature is well-formed. -/
theorem C8_malformed_rejected (proj : Marker → Nat → Point) (zoom : Nat)
    (clusterGroup : List Marker) (features : List Feature) :
    ((∃ res, renderMarkers proj zoom features = Except.ok res) ↔
      ∀ f ∈ features, malformed f = false) ∧
    (∀ f ∈ features, malformed f = true →
      (∃ e, renderMarkers proj zoom features = Except.error e) ∧
      (∃ e, addMarkersToGroup clusterGroup features = Except.error e)) := by
  have hrm : (∃ res, renderMarkers proj zoom features = Except.ok res) ↔
      (∃ v, buildAll features [] [] = Except.ok v) := by
    unfold renderMarkers
    cases buildAll features [] [] with
    | error e => simp [Except.map]
    | ok v => simp [Except.map]
  have ham : (∃ res, addMarkersToGroup clusterGroup features = Except.ok res) ↔
      (∃ v, buildAll features [] [] = Except.ok v) := by
    unfold addMarkersToGroup
    cases buildAll features [] [] with
    | error e => simp [Except.map]
    | ok v => simp [Except.map]
  constructor
  · exact hrm.trans (buildAll_ok_iff features [] [])
  · intro f hf hmal
    have hnot : ¬ ∀ g ∈ features, malformed g = false := by
      intro hall
      rw [hall f hf] at hmal
      cases hmal
    constructor
    · exact except_error_of_not_ok _ (fun hok => hnot ((hrm.trans (buildAll_ok_iff features [] [])).mp hok))
    · exact except_error_of_not_ok _ (fun hok => hnot ((ham.trans (buildAll_ok_iff features [] [])).mp hok))

/-- Witness for C8: a feature with no geometry among the inputs makes both
entry points fail with an error. -/
theorem C8_malformed_rejected_witness :
    (badFeature ∈ [goodFeature, badFeature] ∧ malformed badFeature = true) ∧
    (∃ e, renderMarkers projScale 13 [goodFeature, badFeature] = Except.error e) ∧
    (∃ e, addMarkersToGroup [] [goodFeature, badFeature] = Except.error e) :=
  ⟨⟨by decide, by decide⟩,
   (C8_malformed_rejected projScale 13 [] [goodFeature, badFeature]).2
     badFeature (by decide) (by decide)⟩

-- ─── C10: duplicate-id policy at the registry and store boundaries ───────────

lemma lookup_mapSet (reg : List (Nat × Entry)) (q k : Nat) (v : Entry) :
    List.lookup k (mapSet reg q v) = if k = q then some v else List.lookup k reg := by
  induction reg with
  | nil =>
    by_cases hk : k = q
    · have hbeq : (k == q) = true := by simp [hk]
      simp [mapSet, List.lookup, hbeq, hk]
    · have hbeq : (k == q) = false := by simp [hk]
      simp [mapSet, List.lookup, hbeq, hk]
  | cons kv rest ih =>
    obtain ⟨k0, v0⟩ := kv
    by_cases h0 : k0 = q
    · subst h0
      by_cases hk : k = k0
      · have hbeq : (k == k0) = true := by simp [hk]
        simp [mapSet, List.lookup, hbeq, hk]
      · have hbeq : (k == k0) = false := by simp [hk]
        simp [mapSet, List.lookup, hbeq, hk]
    · by_cases hk : k = k0
      · subst hk
        have hbeq : (k == k) = true := by simp
        have hkq : ¬ k = q := by omega
        simp [mapSet, h0, List.lookup, hbeq, hkq]
      · have hbeq : (k == k0) = false := by simp [hk]
        simp [mapSet, h0, List.lookup, hbeq, ih]

lemma mapSet_keys (reg : List (Nat × Entry)) (q : Nat) (v : Entry) :
    (mapSet reg q v).map Prod.fst =
      if q ∈ reg.map Prod.fst then reg.map Prod.fst
      else reg.map Prod.fst ++ [q] := by
  induction reg with
  | nil => simp [mapSet]
  | cons kv rest ih =>
    obtain ⟨k0, v0⟩ := kv
    by_cases h0 : k0 = q
    · subst h0
      simp [mapSet]
    · have hqk : ¬ q = k0 := fun h => h0 h.symm
      simp only [mapSet, if_neg h0, List.map_cons, ih]
      by_cases hmem : q ∈ rest.map Prod.fst
      · simp [hmem, hqk]
      · simp [hmem, hqk]

lemma mapSet_keys_nodup (reg : List (Nat × Entry)) (q : Nat) (v : Entry)
    (h : (reg.map Prod.fst).Nodup) : ((mapSet reg q v).map Prod.fst).Nodup := by
  rw [mapSet_keys]
  by_cases hmem : q ∈ reg.map Prod.fst
  · simpa [hmem] using h
  · simp [hmem, List.nodup_append, h]

lemma buildAll_keys_nodup :
    ∀ (features : List Feature) (reg : List (Nat × Entry)) (ms : List Marker)
      (res : List (Nat × Entry) × List Marker),
      buildAll features reg ms = Except.ok res →
      (reg.map Prod.fst).Nodup → (res.1.map Prod.fst).Nodup := by
  intro features
  induction features with
  | nil =>
    intro reg ms res h hnd
    simp only [buildAll] at h
    cases h
    exact hnd
  | cons f rest ih =>
    intro reg ms res h hnd
    simp only [buildAll] at h
    cases hb : _buildEntry f with
    | error e => rw [hb] at h; cases h
    | ok entry =>
      rw [hb] at h
      exact ih _ _ _ h (mapSet_keys_nodup _ _ _ hnd)

lemma buildEntry_props {f : Feature} {entry : Entry}
    (h : _buildEntry f = Except.ok entry) : entry.props = f.props := by
  unfold _buildEntry at h
  split at h
  · cases h
  · split at h
    · cases h
      rfl
    · cases h

lemma cons_getLast?_of_ne_nil {α : Type} (a : α) {l : List α} (h : l ≠ []) :
    (a :: l).getLast? = l.getLast? := by
  cases l with
  | nil => exact absurd rfl h
  | cons b t => exact List.getLast?_cons_cons

lemma buildAll_lookup :
    ∀ (features : List Feature) (reg : List (Nat × Entry)) (ms : List Marker)
      (res : List (Nat × Entry) × List Marker),
      buildAll features reg ms = Except.ok res → ∀ k : Nat,
      List.lookup k res.1 =
        match (features.filter (fun f => f.props.pid == k)).getLast? with
        | some f => (_buildEntry f).toOption
        | none => List.lookup k reg := by
  intro features
  induction features with
  | nil =>
    intro reg ms res h k
    simp only [buildAll] at h
    cases h
    simp
  | cons f rest ih =>
    intro reg ms res h k
    simp only [buildAll] at h
    cases hb : _buildEntry f with
    | error e => rw [hb] at h; cases h
    | ok entry =>
      rw [hb] at h
      have hstep := ih _ _ _ h k
      have hpid : entry.props.pid = f.props.pid := by rw [buildEntry_props hb]
      by_cases hpf : (f.props.pid == k) = true
      · have hfk : f.props.pid = k := by simpa using hpf
        have hkpid : k = entry.props.pid := by rw [hpid, hfk]
        have hfilter : (f :: rest).filter (fun g => g.props.pid == k) =
            f :: rest.filter (fun g => g.props.pid == k) := by
          simp [List.filter_cons, hpf]
        rw [hstep, hfilter]
        cases hfr : rest.filter (fun g => g.props.pid == k) with
        | nil =>
          simp only [List.getLast?_nil, List.getLast?_singleton]
          rw [lookup_mapSet, if_pos hkpid, hb]
          rfl
        | cons g gs =>
          rw [cons_getLast?_of_ne_nil f (List.cons_ne_nil g gs)]
          obtain ⟨x, hx⟩ : ∃ x, (g :: gs).getLast? = some x :=
            ⟨_, List.getLast?_eq_getLast_of_ne_nil (List.cons_ne_nil g gs)⟩
          rw [hx]
      · have hpff : (f.props.pid == k) = false := by simpa using hpf
        have hkpid : ¬ k = entry.props.pid := by
          rw [hpid]
          intro hk
          simp [hk] at hpff
        have hlook : List.lookup k (mapSet reg entry.props.pid entry) =
            List.lookup k reg := by
          rw [lookup_mapSet, if_neg hkpid]
        rw [hstep, hlook]
        simp only [List.filter_cons, hpff, Bool.false_eq_true, if_false]

/-- C10: `renderMarkers` and `addMarkersToGroup` key registry entries by
`props.id` via `Map.set`, so a later feature with an id already present
replaces the earlier entry and the registry has exactly one entry per
distinct id (keys are duplicate-free and lookup returns the entry built from
the LAST feature with that id); `mergeFeatures` filters out every incoming
feature whose id is already cached, returns exactly the genuinely-new
features, and never removes or modifies an existing cached feature (the new
store is the old one with the new features appended). -/
theorem C10_duplicate_id_policy (proj : Marker → Nat → Point) (zoom : Nat) :
    (∀ features res, renderMarkers proj zoom features = Except.ok res →
      (res.1.map Prod.fst).Nodup ∧
      ∀ k, List.lookup k res.1 =
        match (features.filter (fun f => f.props.pid == k)).getLast? with
        | some f => (_buildEntry f).toOption
        | none => none) ∧
    (∀ clusterGroup features res,
      addMarkersToGroup clusterGroup features = Except.ok res →
      (res.1.map Prod.fst).Nodup ∧
      ∀ k, List.lookup k res.1 =
        match (features.filter (fun f => f.props.pid == k)).getLast? with
        | some f => (_buildEntry f).toOption
        | none => none) ∧
    (∀ cached newFeatures,
      (mergeFeatures cached newFeatures).2 =
        newFeatures.filter
          (fun f => ¬ (cached.map (fun g => g.props.pid)).contains f.props.pid) ∧
      (mergeFeatures cached newFeatures).1 =
        cached ++ (mergeFeatures cached newFeatures).2) := by
  refine ⟨?_, ?_, fun cached newFeatures => ⟨rfl, rfl⟩⟩
  · intro features res h
    unfold renderMarkers at h
    cases hba : buildAll features [] [] with
    | error e => rw [hba] at h; cases h
    | ok v =>
      rw [hba] at h
      cases h
      constructor
      · exact buildAll_keys_nodup features [] [] v hba (by simp)
      · intro k
        have := buildAll_lookup features [] [] v hba k
        simpa using this
  · intro clusterGroup features res h
    unfold addMarkersToGroup at h
    cases hba : buildAll features [] [] with
    | error e => rw [hba] at h; cases h
    | ok v =>
      rw [hba] at h
      cases h
      constructor
      · exact buildAll_keys_nodup features [] [] v hba (by simp)
      · intro k
        have := buildAll_lookup features [] [] v hba k
        simpa using this

unseal Rat.mul Rat.add Rat.sub Rat.inv in
/-- Witness for C10: two features sharing id 5 produce a registry with a
single entry for id 5 — the one built from the later feature. -/
theorem C10_duplicate_id_policy_witness :
    (renderMarkers projScale 13 dupFeatures = Except.ok dupResult) ∧
    ((dupResult.1.map Prod.fst).Nodup ∧
      ∀ k, List.lookup k dupResult.1 =
        match (dupFeatures.filter (fun f => f.props.pid == k)).getLast? with
        | some f => (_buildEntry f).toOption
        | none => none) :=
  ⟨by rfl,
   (C10_duplicate_id_policy projScale 13).1 dupFeatures dupResult (by rfl)⟩
